import Mathlib

/-!
Verification of the natural-language specification of the `aws_support_scripts`
repository (three Python scripts: `ami_sweeper.py`, `update_ami.py`,
`fabfile.py`) against a shallow embedding of their logic.

The embedding translates each relevant Python function into a Lean function:
the AWS control plane is modelled by explicit data (lists of snapshots, images,
instances, describe-response sequences), the filesystem by a list of files,
exceptions by `Except` / `Option` results, and polling loops by fuel-bounded
recursion whose fuel provably suffices on every terminating path (a `none`
result marks genuine non-termination of the source loop).
-/

/-! ## String helpers

Python's `in` substring test, `str.strip()` and `str.rstrip('\r,\n')` are
modelled on `List Char`. -/

/-- Character-list prefix test: `strStarts n h` is true iff `n` is a prefix of `h`. -/
def strStarts : List Char → List Char → Bool
  | [], _ => true
  | _ :: _, [] => false
  | a :: as, b :: bs => a == b && strStarts as bs

/-- Character-list substring test: `strHas n h` is true iff `n` occurs
contiguously in `h`. -/
def strHas (n : List Char) : List Char → Bool
  | [] => n.isEmpty
  | c :: t => strStarts n (c :: t) || strHas n t

/-- Python's `needle in hay` substring test. -/
def substr (needle hay : String) : Bool :=
  strHas needle.toList hay.toList

theorem strStarts_self_append (l m : List Char) : strStarts l (l ++ m) = true := by
  induction l with
  | nil => rfl
  | cons a as ih => simp [strStarts, ih]

theorem strHas_nil (h : List Char) : strHas [] h = true := by
  cases h <;> simp [strHas, strStarts, List.isEmpty]

/-- A string occurs as a substring of any string it prefixes. -/
theorem substr_append (a b : String) : substr a (a ++ b) = true := by
  unfold substr
  have hdata : (a ++ b).toList = a.toList ++ b.toList := by
    simp [String.toList]
  rw [hdata]
  cases h : a.toList with
  | nil => simpa using strHas_nil b.toList
  | cons c t =>
    have hp : strStarts (c :: t) (c :: (t ++ b.toList)) = true := by
      simpa using strStarts_self_append (c :: t) b.toList
    simp only [strHas, Bool.or_eq_true]
    exact Or.inl hp

/-! ## `ami_sweeper.py` data model

A snapshot carries the fields the sweep inspects, plus the outcome its
`delete()` call would have (`ok`, the `InvalidSnapshot.InUse` client error, or
any other error). -/

/-- An AWS tag (`{'Key': ..., 'Value': ...}`). -/
structure Tag where
  key : String
  value : String
deriving DecidableEq, Repr

/-- Outcome of the EC2 `delete()` call on a snapshot. -/
inductive DelOutcome
  | ok
  | inUse
  | otherErr
deriving DecidableEq, Repr

/-- A snapshot as seen by `ami_sweeper.py`: id, owner account, tag list, and
the outcome its `delete()` call would produce. -/
structure Snapshot where
  id : String
  ownerId : String
  tags : List Tag
  delOutcome : DelOutcome
deriving DecidableEq, Repr

/-- `ami_sweeper.test_protected` (lines 17-33). Returns `some true` when the
first tag with key `Name` has the protected substring in its value,
`some false` when that tag lacks it or the snapshot has no tags at all, and
`none` (Python's implicit `None`) when the snapshot has a non-empty tag list
containing no `Name` tag, because the `for` loop then falls through without
returning. -/
def test_protected (s : Snapshot) (string : String) : Option Bool :=
  match s.tags with
  | [] => some false
  | _ :: _ =>
    match s.tags.find? (fun t => t.key == "Name") with
    | some t => some (substr string t.value)
    | none => none

/-- Python's `x == True` test applied to the result of `test_protected`
(`None == True` is `False`). -/
def isTrue : Option Bool → Bool
  | some true => true
  | _ => false

/-- `ami_sweeper.test_ownership` (lines 35-45): the snapshot's owner id equals
the calling account's id. -/
def test_ownership (s : Snapshot) (account : String) : Bool :=
  s.ownerId == account

/-- The per-snapshot body of `delete_snapshots` (lines 70-92): retain when
protected or not owned; otherwise call `delete()`; an `InvalidSnapshot.InUse`
failure retains the snapshot and continues, any other failure raises
`SystemExit` (modelled as `.error`), aborting the sweep. Accumulators mirror
`deleted_snapshots` and `retained_snapshots`. -/
def processSnaps (account marker : String) :
    List Snapshot → List String → List String →
    Except String (List String × List String)
  | [], del, ret => .ok (del, ret)
  | s :: rest, del, ret =>
    if isTrue (test_protected s marker) || !(test_ownership s account) then
      processSnaps account marker rest del (ret ++ [s.id])
    else
      match s.delOutcome with
      | .ok => processSnaps account marker rest (del ++ [s.id]) ret
      | .inUse => processSnaps account marker rest del (ret ++ [s.id])
      | .otherErr => .error s.id

/-- The `while 'NextToken' in response` loop of `delete_snapshots`
(lines 59-94). `pages` holds the responses still to be fetched: the loop runs
one iteration per remaining page (a response carries a `NextToken` exactly when
further pages remain), appending the fetched page to the pending list, then
processing and clearing it. When no page remains the loop exits and the
accumulated lists are returned; note that a non-empty `pending` list left at
that point is never processed, exactly as in the source. -/
def sweepLoop (account marker : String) :
    List (List Snapshot) → List Snapshot → List String → List String →
    Except String (List String × List String)
  | [], _, del, ret => .ok (del, ret)
  | p :: ps, pending, del, ret =>
    match processSnaps account marker (pending ++ p) del ret with
    | .ok (d, r) => sweepLoop account marker ps [] d r
    | .error e => .error e

/-- `ami_sweeper.delete_snapshots` (lines 47-95). `firstPage` is the response
of the initial `describe_snapshots` call (its snapshots are appended to
`list_snapshots` before the loop); `rest` are the pages fetched inside the
`while 'NextToken' in response` loop, so `rest = []` models a first response
without a `NextToken`. -/
def delete_snapshots (account marker : String)
    (firstPage : List Snapshot) (rest : List (List Snapshot)) :
    Except String (List String × List String) :=
  sweepLoop account marker rest firstPage [] []

-- concrete evaluation examples
example :
    delete_snapshots "1" "_BACKUP" [] [[⟨"snap-2", "1", [⟨"Name", "nightly"⟩], .ok⟩]]
      = .ok (["snap-2"], []) := by rfl
example :
    delete_snapshots "1" "_BACKUP" [⟨"snap-2", "1", [], .ok⟩] [] = .ok ([], []) := by rfl
example : test_protected ⟨"s", "1", [⟨"Role", "db"⟩], .ok⟩ "_BACKUP" = none := by decide
example : substr "_TMP" "web_TMP" = true := by decide
example : substr "_TMP" "web" = false := by decide

/-! ## Generic list search lemmas

Decomposition lemmas for `find?` and `findSome?`: a successful search splits
the list at the first hit, with every earlier element failing the search. -/

theorem find?_some_split {α : Type} (p : α → Bool) (l : List α) (a : α)
    (h : l.find? p = some a) :
    ∃ l1 l2, l = l1 ++ a :: l2 ∧ p a = true ∧ ∀ x ∈ l1, p x = false := by
  induction l with
  | nil => simp [List.find?] at h
  | cons b bs ih =>
    by_cases hb : p b = true
    · rw [List.find?_cons_of_pos _ hb] at h
      obtain rfl : b = a := by injection h
      exact ⟨[], bs, rfl, hb, by simp⟩
    · rw [List.find?_cons_of_neg _ (by simpa using hb)] at h
      obtain ⟨l1, l2, rfl, hpa, hall⟩ := ih h
      refine ⟨b :: l1, l2, rfl, hpa, ?_⟩
      intro x hx
      rcases List.mem_cons.mp hx with rfl | hx
      · simpa using hb
      · exact hall x hx

theorem findSome?_some_split {α β : Type} (f : α → Option β) (l : List α) (b : β)
    (h : l.findSome? f = some b) :
    ∃ l1 a l2, l = l1 ++ a :: l2 ∧ f a = some b ∧ ∀ x ∈ l1, f x = none := by
  induction l with
  | nil => simp [List.findSome?] at h
  | cons c cs ih =>
    rw [List.findSome?_cons] at h
    cases hc : f c with
    | some v =>
      rw [hc] at h
      obtain rfl : v = b := by injection h
      exact ⟨[], c, cs, rfl, hc, by simp⟩
    | none =>
      rw [hc] at h
      obtain ⟨l1, a, l2, rfl, hfa, hall⟩ := ih h
      refine ⟨c :: l1, a, l2, rfl, hfa, ?_⟩
      intro x hx
      rcases List.mem_cons.mp hx with rfl | hx
      · exact hc
      · exact hall x hx

/-! ## `ami_sweeper.py`: image deregistration sweep -/

/-- An AMI as seen by the sweeps and locators: id, AMI name, owner account, and
the HTTP status code its `deregister_image` call would return. -/
structure Image where
  id : String
  name : String
  ownerId : String
  deregStatus : Nat
deriving DecidableEq, Repr

/-- First loop of `ami_sweeper.deregister_images` (lines 113-119): split the
owned images into `images_to_deregister` (name contains the marker) and
`images_retained` (ids of the rest), preserving enumeration order. -/
def splitImages (marker : String) : List Image → List Image × List String
  | [] => ([], [])
  | im :: rest =>
    let (toD, ret) := splitImages marker rest
    if substr marker im.name then (im :: toD, ret) else (toD, im.id :: ret)

/-- Second loop of `ami_sweeper.deregister_images` (lines 120-128): issue a
`deregister_image` call for each listed image; an HTTP 200 response appends the
id to `images_deregistered`, any other status code does nothing at all. -/
def deregLoop : List Image → List String
  | [] => []
  | im :: rest =>
    if im.deregStatus == 200 then im.id :: deregLoop rest else deregLoop rest

/-- `ami_sweeper.deregister_images` (lines 97-129). The `owner-id` filter of
the describe call is modelled by the initial `filter`; returns
`(images_deregistered, images_retained)`. -/
def deregister_images (account marker : String) (images : List Image) :
    List String × List String :=
  let owned := images.filter (fun im => im.ownerId == account)
  let (toD, ret) := splitImages marker owned
  (deregLoop toD, ret)

theorem mem_splitImages_fst (marker : String) (l : List Image) (im : Image) :
    im ∈ (splitImages marker l).1 ↔ im ∈ l ∧ substr marker im.name = true := by
  induction l with
  | nil => simp [splitImages]
  | cons b bs ih =>
    by_cases hb : substr marker b.name = true
    · simp only [splitImages, hb, if_pos]
      constructor
      · intro h
        rcases List.mem_cons.mp h with rfl | h
        · exact ⟨List.mem_cons_self _ _, hb⟩
        · obtain ⟨h1, h2⟩ := ih.mp h
          exact ⟨List.mem_cons_of_mem _ h1, h2⟩
      · rintro ⟨h1, h2⟩
        rcases List.mem_cons.mp h1 with rfl | h1
        · exact List.mem_cons_self _ _
        · exact List.mem_cons_of_mem _ (ih.mpr ⟨h1, h2⟩)
    · simp only [splitImages, hb, if_neg, Bool.not_eq_true]
      constructor
      · intro h
        obtain ⟨h1, h2⟩ := ih.mp h
        exact ⟨List.mem_cons_of_mem _ h1, h2⟩
      · rintro ⟨h1, h2⟩
        rcases List.mem_cons.mp h1 with rfl | h1
        · exact absurd h2 hb
        · exact ih.mpr ⟨h1, h2⟩

theorem mem_splitImages_snd (marker : String) (l : List Image) (x : String) :
    x ∈ (splitImages marker l).2 ↔
      ∃ im, im ∈ l ∧ substr marker im.name = false ∧ x = im.id := by
  induction l with
  | nil => simp [splitImages]
  | cons b bs ih =>
    by_cases hb : substr marker b.name = true
    · simp only [splitImages, hb, if_pos]
      rw [ih]
      constructor
      · rintro ⟨im, h1, h2, rfl⟩
        exact ⟨im, List.mem_cons_of_mem _ h1, h2, rfl⟩
      · rintro ⟨im, h1, h2, rfl⟩
        rcases List.mem_cons.mp h1 with rfl | h1
        · simp [hb] at h2
        · exact ⟨im, h1, h2, rfl⟩
    · simp only [splitImages]
      rw [if_neg hb]
      constructor
      · intro h
        rcases List.mem_cons.mp h with rfl | h
        · exact ⟨b, List.mem_cons_self _ _, by simpa using hb, rfl⟩
        · obtain ⟨im, h1, h2, rfl⟩ := ih.mp h
          exact ⟨im, List.mem_cons_of_mem _ h1, h2, rfl⟩
      · rintro ⟨im, h1, h2, rfl⟩
        rcases List.mem_cons.mp h1 with rfl | h1
        · exact List.mem_cons_self _ _
        · exact List.mem_cons_of_mem _ (ih.mpr ⟨im, h1, h2, rfl⟩)

theorem mem_deregLoop (l : List Image) (x : String) :
    x ∈ deregLoop l ↔ ∃ im, im ∈ l ∧ im.deregStatus = 200 ∧ x = im.id := by
  induction l with
  | nil => simp [deregLoop]
  | cons b bs ih =>
    by_cases hb : b.deregStatus = 200
    · simp only [deregLoop, if_pos (by simpa using hb : (b.deregStatus == 200) = true)]
      constructor
      · intro h
        rcases List.mem_cons.mp h with rfl | h
        · exact ⟨b, List.mem_cons_self _ _, hb, rfl⟩
        · obtain ⟨im, h1, h2, rfl⟩ := ih.mp h
          exact ⟨im, List.mem_cons_of_mem _ h1, h2, rfl⟩
      · rintro ⟨im, h1, h2, rfl⟩
        rcases List.mem_cons.mp h1 with rfl | h1
        · exact List.mem_cons_self _ _
        · exact List.mem_cons_of_mem _ (ih.mpr ⟨im, h1, h2, rfl⟩)
    · simp only [deregLoop, if_neg (by simpa using hb : ¬(b.deregStatus == 200) = true)]
      rw [ih]
      constructor
      · rintro ⟨im, h1, h2, rfl⟩
        exact ⟨im, List.mem_cons_of_mem _ h1, h2, rfl⟩
      · rintro ⟨im, h1, h2, rfl⟩
        rcases List.mem_cons.mp h1 with rfl | h1
        · exact absurd h2 hb
        · exact ⟨im, h1, h2, rfl⟩

/-! ## Resource locators (`fabfile.py`, `update_ami.py`) -/

/-- An EC2 instance as seen by the locators: id, owner account, tag list and
run-state name. -/
structure Inst where
  id : String
  ownerId : String
  tags : List Tag
  stateName : String
deriving DecidableEq, Repr

/-- Inner tag loop of `fabfile.find_instance_id` (lines 236-244): one copy of
the instance is appended to `candidates` per tag whose key is `Name` and whose
value equals the query. -/
def candTags (inst : Inst) (search : String) : List Tag → List Inst
  | [] => []
  | t :: ts =>
    if t.key == "Name" && t.value == search then inst :: candTags inst search ts
    else candTags inst search ts

/-- Candidate-collection phase of `fabfile.find_instance_id` (lines 235-244). -/
def fabCandidates (search : String) : List Inst → List Inst
  | [] => []
  | inst :: rest => candTags inst search inst.tags ++ fabCandidates search rest

/-- Whether an instance carries a `Name` tag whose value equals the query. -/
def instMatches (search : String) (inst : Inst) : Bool :=
  inst.tags.any (fun t => t.key == "Name" && t.value == search)

/-- `fabfile.find_instance_id` (lines 224-255): collect all owned instances
with a matching `Name` tag, then return the id of the first candidate whose
run-state is `running`; `none` models the final `abort(...)`. -/
def find_instance_id_fab (account search : String) (instances : List Inst) :
    Option String :=
  let owned := instances.filter (fun inst => inst.ownerId == account)
  let candidates := fabCandidates search owned
  match candidates.find? (fun inst => inst.stateName == "running") with
  | some inst => some inst.id
  | none => none

/-- Inner tag loop of `update_ami.find_instance_id` (lines 134-141): return the
instance id at the first tag with key `Name` and value equal to the query. -/
def updScanTags (instId search : String) : List Tag → Option String
  | [] => none
  | t :: ts =>
    if t.key == "Name" && t.value == search then some instId
    else updScanTags instId search ts

/-- `update_ami.find_instance_id` (lines 122-144): return the id of the first
owned instance with a `Name` tag equal to the query — no run-state check;
`none` models the final `raise SystemExit`. -/
def find_instance_id_upd (account search : String) (instances : List Inst) :
    Option String :=
  let owned := instances.filter (fun inst => inst.ownerId == account)
  owned.findSome? (fun inst => updScanTags inst.id search inst.tags)

/-- `fabfile.find_ami_id` (lines 140-155) and `update_ami.find_ami_id`
(lines 102-119), which share this logic: return the id of the first owned
image whose AMI name equals the query; `none` models `abort` /
`raise SystemExit`. -/
def find_ami_id (account search : String) (images : List Image) :
    Option String :=
  let owned := images.filter (fun im => im.ownerId == account)
  (owned.find? (fun im => im.name == search)).map (fun im => im.id)

theorem mem_candTags (inst x : Inst) (search : String) (ts : List Tag) :
    x ∈ candTags inst search ts ↔
      x = inst ∧ ts.any (fun t => t.key == "Name" && t.value == search) = true := by
  induction ts with
  | nil => simp [candTags]
  | cons t ts ih =>
    by_cases ht : (t.key == "Name" && t.value == search) = true
    · simp only [candTags, if_pos ht, List.any_cons, ht, Bool.true_or]
      constructor
      · intro h
        rcases List.mem_cons.mp h with rfl | h
        · exact ⟨rfl, trivial⟩
        · exact ⟨(ih.mp h).1, trivial⟩
      · rintro ⟨rfl, -⟩
        exact List.mem_cons_self _ _
    · simp only [candTags, if_neg ht, List.any_cons,
        (by simpa using ht : (t.key == "Name" && t.value == search) = false),
        Bool.false_or]
      exact ih

theorem mem_fabCandidates (search : String) (l : List Inst) (x : Inst) :
    x ∈ fabCandidates search l ↔ x ∈ l ∧ instMatches search x = true := by
  induction l with
  | nil => simp [fabCandidates]
  | cons inst rest ih =>
    simp only [fabCandidates, List.mem_append, mem_candTags, ih, instMatches]
    constructor
    · rintro (⟨rfl, h⟩ | ⟨h1, h2⟩)
      · exact ⟨List.mem_cons_self _ _, h⟩
      · exact ⟨List.mem_cons_of_mem _ h1, h2⟩
    · rintro ⟨h1, h2⟩
      rcases List.mem_cons.mp h1 with rfl | h1
      · exact Or.inl ⟨rfl, h2⟩
      · exact Or.inr ⟨h1, h2⟩

theorem updScanTags_eq_some (instId search v : String) (ts : List Tag)
    (h : updScanTags instId search ts = some v) :
    v = instId ∧ ts.any (fun t => t.key == "Name" && t.value == search) = true := by
  induction ts with
  | nil => simp [updScanTags] at h
  | cons t ts ih =>
    by_cases ht : (t.key == "Name" && t.value == search) = true
    · rw [updScanTags, if_pos ht] at h
      obtain rfl : instId = v := by injection h
      simp [ht]
    · rw [updScanTags, if_neg ht] at h
      obtain ⟨rfl, h2⟩ := ih h
      simp [h2]

theorem updScanTags_eq_none (instId search : String) (ts : List Tag) :
    updScanTags instId search ts = none ↔
      ts.any (fun t => t.key == "Name" && t.value == search) = false := by
  induction ts with
  | nil => simp [updScanTags]
  | cons t ts ih =>
    by_cases ht : (t.key == "Name" && t.value == search) = true
    · simp [updScanTags, if_pos ht, ht]
    · simp only [updScanTags, if_neg ht, List.any_cons,
        (by simpa using ht : (t.key == "Name" && t.value == search) = false),
        Bool.false_or]
      exact ih

-- concrete evaluation examples
example :
    find_instance_id_fab "1" "web"
      [⟨"i-0", "1", [⟨"Name", "web"⟩], "stopped"⟩, ⟨"i-1", "1", [⟨"Name", "web"⟩], "running"⟩]
      = some "i-1" := by decide
example :
    find_instance_id_upd "1" "web"
      [⟨"i-0", "1", [⟨"Name", "web"⟩], "stopped"⟩, ⟨"i-1", "1", [⟨"Name", "web"⟩], "running"⟩]
      = some "i-0" := by decide
example : find_ami_id "1" "web_CURRENT" [⟨"ami-1", "web_CURRENT", "1", 200⟩] = some "ami-1" := by
  decide
example : find_ami_id "1" "web_CURRENT" [⟨"ami-1", "web_CURRENT", "2", 200⟩] = none := by decide

/-! ## Polling loops (`wait_deregister`, `wait_copy`)

Each loop is driven by the sequence of describe-responses it would observe,
one response per iteration (`resp k` is the k-th response). The loops are
fuel-bounded; `T + 1` units of fuel are enough for every path the source
terminates on (proved below), and a `none` result marks a run on which the
source loop never exits. -/

/-- Result of a polling loop, carrying the number of sleeps performed:
`success` models `return 0`, `timeout` models `raise MyTimeoutError` /
`abort("wait_copy() timed out.")`. -/
inductive WaitOutcome
  | success : Nat → WaitOutcome
  | timeout : Nat → WaitOutcome
deriving DecidableEq, Repr

/-- Loop body of `wait_deregister` (`fabfile.py` lines 412-430,
`update_ami.py` lines 285-299; both share this logic): if the k-th describe
response lists no image, return success; otherwise sleep the interval, add it
to the timer, and raise a timeout once the timer reaches the bound. `k` counts
iterations (equal to sleeps so far), `timer` the accumulated waiting time. -/
def wdLoop (resp : Nat → Bool) (i T : Nat) : Nat → Nat → Nat → Option WaitOutcome
  | 0, _, _ => none
  | fuel + 1, k, timer =>
    if resp k then
      if T ≤ timer + i then some (.timeout (k + 1))
      else wdLoop resp i T fuel (k + 1) (timer + i)
    else some (.success k)

/-- `wait_deregister`: poll until the image name no longer resolves.
`resp k = true` means the k-th `describe_images` response still lists the
image. -/
def wait_deregister (resp : Nat → Bool) (i T : Nat) : Option WaitOutcome :=
  wdLoop resp i T (T + 1) 0 0

/-- One `describe_images` response as inspected by `wait_copy`: no image, one
image (with its availability), or two or more images (a case the loop body
never handles). -/
inductive ImagesResp
  | zero
  | one : Bool → ImagesResp
  | many
deriving DecidableEq, Repr

/-- Loop body of `fabfile.wait_copy` (lines 374-400): an empty response or a
single not-yet-available image sleeps and advances the timer; a single
available image returns success; a response with two or more images matches
neither branch, so the iteration falls through to the timeout check without
sleeping or touching the timer. `k` is the response index, `sleeps` the number
of sleeps so far. -/
def wcLoop (resp : Nat → ImagesResp) (i T : Nat) :
    Nat → Nat → Nat → Nat → Option WaitOutcome
  | 0, _, _, _ => none
  | fuel + 1, k, sleeps, timer =>
    match resp k with
    | .zero =>
      if T ≤ timer + i then some (.timeout (sleeps + 1))
      else wcLoop resp i T fuel (k + 1) (sleeps + 1) (timer + i)
    | .one avail =>
      if avail then some (.success sleeps)
      else
        if T ≤ timer + i then some (.timeout (sleeps + 1))
        else wcLoop resp i T fuel (k + 1) (sleeps + 1) (timer + i)
    | .many =>
      if T ≤ timer then some (.timeout sleeps)
      else wcLoop resp i T fuel (k + 1) sleeps timer

/-- `fabfile.wait_copy` (lines 365-400): poll until the copied image exists
and is available. -/
def wait_copy (resp : Nat → ImagesResp) (i T : Nat) : Option WaitOutcome :=
  wcLoop resp i T (T + 1) 0 0 0

/-- Ceiling division: if `k` intervals of length `i` do not reach `T` but
`k + 1` do, then `k + 1 = ⌈T / i⌉`. -/
theorem ceil_step (i T k : Nat) (hi : 0 < i) (h1 : k * i < T) (h2 : T ≤ (k + 1) * i) :
    (T + i - 1) / i = k + 1 := by
  apply Nat.div_eq_of_lt_le
  · calc (k + 1) * i = k * i + i := by ring
    _ ≤ (T - 1) + i := by omega
    _ = T + i - 1 := by omega
  · calc T + i - 1 ≤ (k + 1) * i + i - 1 := by omega
    _ < (k + 1 + 1) * i := by
        have : (k + 1 + 1) * i = (k + 1) * i + i := by ring
        omega

/-- All-found invariant for `wdLoop`: starting at iteration `k` with
`timer = k * i`, an all-found response stream times out after `⌈T / i⌉`
sleeps in total. -/
theorem wdLoop_all_found (resp : Nat → Bool) (i T : Nat) (hi : 0 < i)
    (hall : ∀ n, resp n = true) :
    ∀ fuel k, k * i < T → T ≤ (k + fuel) * i →
      wdLoop resp i T fuel k (k * i) = some (.timeout ((T + i - 1) / i)) := by
  intro fuel
  induction fuel with
  | zero =>
    intro k h1 h2
    have he : (k + 0) * i = k * i := by ring
    omega
  | succ fuel ih =>
    intro k h1 h2
    rw [wdLoop, if_pos (hall k)]
    by_cases hT : T ≤ k * i + i
    · rw [if_pos hT]
      have : (T + i - 1) / i = k + 1 := by
        apply ceil_step i T k hi h1
        calc T ≤ k * i + i := hT
        _ = (k + 1) * i := by ring
      rw [this]
    · rw [if_neg hT]
      have hk1 : (k + 1) * i = k * i + i := by ring
      have h1' : (k + 1) * i < T := by omega
      have h2' : T ≤ (k + 1 + fuel) * i := by
        have : (k + 1 + fuel) * i = (k + (fuel + 1)) * i := by ring
        omega
      have := ih (k + 1) h1' h2'
      rwa [hk1] at this

/-- All-not-found invariant for `wcLoop`: starting at iteration `k` with
`sleeps = k` and `timer = k * i`, an all-empty response stream times out after
`⌈T / i⌉` sleeps in total. -/
theorem wcLoop_all_zero (resp : Nat → ImagesResp) (i T : Nat) (hi : 0 < i)
    (hall : ∀ n, resp n = .zero) :
    ∀ fuel k, k * i < T → T ≤ (k + fuel) * i →
      wcLoop resp i T fuel k k (k * i) = some (.timeout ((T + i - 1) / i)) := by
  intro fuel
  induction fuel with
  | zero =>
    intro k h1 h2
    have he : (k + 0) * i = k * i := by ring
    omega
  | succ fuel ih =>
    intro k h1 h2
    rw [wcLoop, hall k]
    simp only
    by_cases hT : T ≤ k * i + i
    · rw [if_pos hT]
      have : (T + i - 1) / i = k + 1 := by
        apply ceil_step i T k hi h1
        calc T ≤ k * i + i := hT
        _ = (k + 1) * i := by ring
      rw [this]
    · rw [if_neg hT]
      have hk1 : (k + 1) * i = k * i + i := by ring
      have h1' : (k + 1) * i < T := by omega
      have h2' : T ≤ (k + 1 + fuel) * i := by
        have : (k + 1 + fuel) * i = (k + (fuel + 1)) * i := by ring
        omega
      have := ih (k + 1) h1' h2'
      rwa [hk1] at this

/-- Termination invariant for `wcLoop` under the at-most-one-image
precondition: with a positive interval, enough fuel, and no response listing
two or more images, the loop returns some outcome. -/
theorem wcLoop_terminates (resp : Nat → ImagesResp) (i T : Nat)
    (hmany : ∀ n, resp n ≠ .many) :
    ∀ fuel k sleeps timer, timer < T → T ≤ timer + fuel * i →
      ∃ r, wcLoop resp i T fuel k sleeps timer = some r := by
  intro fuel
  induction fuel with
  | zero =>
    intro k sleeps timer h1 h2
    omega
  | succ fuel ih =>
    intro k sleeps timer h1 h2
    cases hk : resp k with
    | zero =>
      rw [wcLoop, hk]
      simp only
      by_cases hT : T ≤ timer + i
      · exact ⟨.timeout (sleeps + 1), by rw [if_pos hT]⟩
      · rw [if_neg hT]
        apply ih
        · omega
        · have : timer + (fuel + 1) * i = (timer + i) + fuel * i := by ring
          omega
    | one avail =>
      rw [wcLoop, hk]
      cases avail with
      | true => exact ⟨.success sleeps, by simp⟩
      | false =>
        simp only [Bool.false_eq_true, if_false]
        by_cases hT : T ≤ timer + i
        · exact ⟨.timeout (sleeps + 1), by rw [if_pos hT]⟩
        · rw [if_neg hT]
          apply ih
          · omega
          · have : timer + (fuel + 1) * i = (timer + i) + fuel * i := by ring
            omega
    | many => exact absurd hk (hmany k)

/-- Divergence of `wcLoop` on all-many response streams: while the timer sits
below the bound, a response with two or more images neither returns, sleeps,
nor advances the timer, so the loop never exits (it exhausts any amount of
fuel). -/
theorem wcLoop_all_many (resp : Nat → ImagesResp) (i T : Nat)
    (hall : ∀ n, resp n = .many) :
    ∀ fuel k sleeps timer, timer < T →
      wcLoop resp i T fuel k sleeps timer = none := by
  intro fuel
  induction fuel with
  | zero => intro k sleeps timer _; rfl
  | succ fuel ih =>
    intro k sleeps timer h1
    rw [wcLoop, hall k]
    simp only
    rw [if_neg (by omega)]
    exact ih (k + 1) sleeps timer h1

/-! ## `update_ami.py`: create_ami and the freeze section of main -/

/-- `update_ami.create_ami` (lines 56-80). `callResult` is what the
`create_image` call does: `some imageId` on success, `none` when it raises.
The `try/except` catches and merely logs the exception, but the subsequent
`logger.info("Success: new AMI id will be %s.", response['ImageId'])` runs
unconditionally; when the call raised, the local `response` was never bound,
so that line raises `UnboundLocalError`, which nothing catches (modelled as
`.error`). -/
def create_ami (callResult : Option String) : Except String Unit :=
  match callResult with
  | some _ => .ok ()
  | none => .error "UnboundLocalError"

/-- One step of the freeze-refresh workflow in `update_ami.main`. -/
inductive Step
  | stopService
  | freezeFS
  | createImageCall
  | unfreezeFS
  | startService
deriving DecidableEq, Repr

/-- The freeze section of `update_ami.main` (lines 364-372), given that the
stop-service and freeze steps completed: run `create_ami`; if it raises, the
exception propagates out of `main` (second component) and execution stops
there; otherwise the unfreeze and restart steps follow. The first component
lists the steps reached, in order. -/
def mainFreezeSection (callResult : Option String) : List Step × Option String :=
  match create_ami callResult with
  | .ok _ =>
    ([.stopService, .freezeFS, .createImageCall, .unfreezeFS, .startService],
      Option.none)
  | .error e => ([.stopService, .freezeFS, .createImageCall], some e)

/-! ## `fabfile.py`: continuity files on disk

The filesystem is modelled as the list of files under `/tmp` (directory walk
order = list order); a file has the directory it sits in, a bare name, and its
content as the list of raw lines `readlines()` would return. -/

/-- A file under `/tmp`: containing directory, bare file name, raw lines. -/
structure FSFile where
  dir : String
  fname : String
  lines : List String
deriving DecidableEq, Repr

/-- Characters removed by Python's default `str.strip()`. -/
def wsChar (c : Char) : Bool :=
  c == ' ' || c == '\t' || c == '\n' || c == '\r' || c == '\x0b' || c == '\x0c'

/-- Python's `str.strip()`: drop leading and trailing whitespace. -/
def pyStrip (s : String) : String :=
  String.mk (((s.toList.dropWhile wsChar).reverse.dropWhile wsChar).reverse)

/-- Python's `str.rstrip('\r,\n')` as applied by `store_to_disk` (line 349):
drop trailing characters drawn from `\r`, `,`, `\n`. -/
def rstripTrail (s : String) : String :=
  String.mk ((s.toList.reverse.dropWhile (fun c => c == '\r' || c == ',' || c == '\n')).reverse)

/-- `fabfile.store_to_disk` (lines 343-362): right-strip each id, create a
fresh temporary directory (`tmpdir`, the result of `mkdtemp()`), and write the
ids one per line (each line ends in the written newline) to a file named
`cookie_category` in it. -/
def store_to_disk (category : String) (ids : List String) (cookie tmpdir : String)
    (fs : List FSFile) : List FSFile :=
  fs ++ [⟨tmpdir, cookie ++ "_" ++ category, ids.map (fun i => rstripTrail i ++ "\n")⟩]

/-- `fabfile.find_file` (lines 211-221): first file under the start directory
whose name matches, else `None`. -/
def find_file (name : String) (fs : List FSFile) : Option FSFile :=
  fs.find? (fun f => f.fname == name)

/-- `fabfile.retrieve_from_disk` (lines 317-341): locate the first file named
`cookie_category` under `/tmp`, read its lines, and return them stripped when
non-empty; a missing file or an empty file yields `None`. -/
def retrieve_from_disk (category cookie : String) (fs : List FSFile) :
    Option (List String) :=
  match find_file (cookie ++ "_" ++ category) fs with
  | some f =>
    if f.lines.isEmpty then none
    else some (f.lines.map pyStrip)
  | none => none

/-- `fabfile.clean_up` (lines 26-44): remove every file under `/tmp` whose
name contains the cookie as a substring (the subsequent removal of the
now-empty parent directories has no effect on the file list). -/
def clean_up (cookie : String) (fs : List FSFile) : List FSFile :=
  fs.filter (fun f => !(substr cookie f.fname))

/-- A membership identifier as handed to `store_to_disk` (a load-balancer name
or target-group ARN): non-empty and free of whitespace and commas. -/
def isCleanId (s : String) : Bool :=
  !(s.toList.isEmpty) && s.toList.all (fun c => !(wsChar c) && !(c == ','))

-- concrete evaluation examples
example : pyStrip "lb-1\n" = "lb-1" := by decide
example : rstripTrail "lb-1," = "lb-1" := by decide
example :
    retrieve_from_disk "LB" "K" (store_to_disk "LB" ["lb-1", "lb-2"] "K" "/tmp/d" [])
      = some ["lb-1", "lb-2"] := by decide
example : retrieve_from_disk "LB" "K" (clean_up "K" (store_to_disk "LB" ["lb-1"] "K" "/tmp/d" []))
      = none := by decide

theorem dropWhile_of_forall_false {p : Char → Bool} {l : List Char}
    (h : ∀ c ∈ l, p c = false) : l.dropWhile p = l := by
  cases l with
  | nil => rfl
  | cons c t =>
    rw [List.dropWhile_cons, if_neg]
    simp [h c (List.mem_cons_self _ _)]

theorem cleanId_facts (i : String) (h : isCleanId i = true) :
    i.toList ≠ [] ∧ ∀ c ∈ i.toList, wsChar c = false ∧ c ≠ ',' := by
  simpa [isCleanId, String.toList, List.all_eq_true, Bool.not_eq_true'] using h

/-- A clean identifier is untouched by `rstrip('\r,\n')`. -/
theorem rstripTrail_clean (i : String) (h : isCleanId i = true) :
    rstripTrail i = i := by
  unfold rstripTrail
  have hall : ∀ c ∈ i.toList.reverse, (c == '\r' || c == ',' || c == '\n') = false := by
    intro c hc
    rw [List.mem_reverse] at hc
    obtain ⟨hws, hcomma⟩ := (cleanId_facts i h).2 c hc
    simp [wsChar] at hws
    simp [hws.1.1.1.2, hws.1.1.2, hcomma]
  rw [dropWhile_of_forall_false hall, List.reverse_reverse]
  rfl

/-- A clean identifier followed by the written newline strips back to itself. -/
theorem pyStrip_clean (i : String) (h : isCleanId i = true) :
    pyStrip (i ++ "\n") = i := by
  unfold pyStrip
  have hdata : (i ++ "\n").toList = i.toList ++ ['\n'] := by
    simp [String.toList]
  have hclean : ∀ c ∈ i.toList, wsChar c = false := by
    intro c hc
    exact ((cleanId_facts i h).2 c hc).1
  have hne : i.toList ≠ [] := (cleanId_facts i h).1
  rw [hdata]
  cases hl : i.toList with
  | nil => exact absurd hl hne
  | cons c t =>
    have hc : wsChar c = false := hclean c (by rw [hl]; exact List.mem_cons_self _ _)
    have hfront : List.dropWhile wsChar ((c :: t) ++ ['\n']) = (c :: t) ++ ['\n'] := by
      rw [List.cons_append, List.dropWhile_cons, if_neg (by simp [hc])]
    rw [hfront]
    have hrev : ((c :: t) ++ ['\n']).reverse = '\n' :: (c :: t).reverse := by
      simp
    rw [hrev, List.dropWhile_cons, if_pos (by simp [wsChar])]
    have hallrev : ∀ x ∈ (c :: t).reverse, wsChar x = false := by
      intro x hx
      rw [List.mem_reverse] at hx
      exact hclean x (by rw [hl]; exact hx)
    rw [dropWhile_of_forall_false hallrev, List.reverse_reverse]
    have : String.mk (c :: t) = String.mk i.toList := by rw [hl]
    rw [this]
    rfl

theorem find?_append_of_none {α : Type} (p : α → Bool) (l1 l2 : List α)
    (h : ∀ x ∈ l1, p x = false) : (l1 ++ l2).find? p = l2.find? p := by
  rw [List.find?_append]
  rw [List.find?_eq_none.mpr (by intro x hx; simp [h x hx])]
  rfl

/-! ## Claim theorems -/

/-- Claim C1 (code bug). The claim says every visible owned, unprotected
snapshot is deleted, and the script's own `--ignore-string` help text promises
the same; but `delete_snapshots` only processes snapshots inside the
`while 'NextToken' in response` loop, so when the first describe response
carries no continuation token the sweep returns without examining anything:
an owned, untagged (hence unprotected) snapshot in a sole first page is
neither deleted nor retained. By contrast, the very same snapshot is deleted
when it arrives in a page fetched inside the loop. -/
theorem c1_sole_page_never_processed :
    delete_snapshots "111122223333" "_BACKUP"
        [⟨"snap-1", "111122223333", [], .ok⟩] [] = .ok ([], [])
    ∧ test_ownership ⟨"snap-1", "111122223333", [], .ok⟩ "111122223333" = true
    ∧ isTrue (test_protected ⟨"snap-1", "111122223333", [], .ok⟩ "_BACKUP") = false
    ∧ delete_snapshots "111122223333" "_BACKUP"
        [] [[⟨"snap-1", "111122223333", [], .ok⟩]] = .ok (["snap-1"], []) :=
  ⟨rfl, rfl, rfl, rfl⟩

/-- Claim C2 (code bug). The claim (and the comment inside `create_ami`) says
a failed create-image call is logged and execution still reaches the
unfreeze-filesystems and restart-service steps; in fact the success-log line
after the `try/except` reads the unbound local `response`, so the call's
failure resurfaces as an uncaught `UnboundLocalError` and `main` stops before
either cleanup step. -/
theorem c2_create_failure_skips_cleanup :
    mainFreezeSection Option.none
      = ([.stopService, .freezeFS, .createImageCall], some "UnboundLocalError")
    ∧ Step.unfreezeFS ∉ (mainFreezeSection Option.none).1
    ∧ Step.startService ∉ (mainFreezeSection Option.none).1 := by
  refine ⟨rfl, ?_, ?_⟩ <;> decide

/-- Claim C3, counterexample. `update_ami.find_instance_id` has no run-state
check: a sole candidate instance in state `stopped` is selected, so the
claim's "the selected candidate must additionally have run-state running"
fails for that locator. -/
theorem c3_counterexample :
    find_instance_id_upd "1" "web" [⟨"i-1", "1", [⟨"Name", "web"⟩], "stopped"⟩]
      = some "i-1"
    ∧ (⟨"i-1", "1", [⟨"Name", "web"⟩], "stopped"⟩ : Inst).stateName ≠ "running" :=
  ⟨rfl, by decide⟩

/-- Claim C7, counterexample. An owned image whose name contains the marker
but whose deregister call answers HTTP 500 ends up in neither the
deregistered nor the retained list, contradicting the claim that every
non-200 outcome leaves the image in the retained list. -/
theorem c7_counterexample :
    (⟨"ami-1", "web_TMP", "1", 500⟩ : Image).ownerId = "1"
    ∧ substr "_TMP" ((⟨"ami-1", "web_TMP", "1", 500⟩ : Image).name) = true
    ∧ deregister_images "1" "_TMP" [⟨"ami-1", "web_TMP", "1", 500⟩] = ([], []) := by
  refine ⟨rfl, by decide, rfl⟩

/-- Claim C8 (confirmed). For a snapshot the sweep decides to delete (owned
and not protected), a delete failing with `InvalidSnapshot.InUse` adds the
snapshot to the retained list and processing continues with the state
otherwise unchanged; a delete failing for any other reason turns the whole
sweep into `SystemExit`, regardless of how many pages were still pending. -/
theorem c8_delete_failure_policy (account marker : String) (s : Snapshot)
    (rest : List Snapshot) (del ret : List String)
    (hprot : isTrue (test_protected s marker) = false)
    (hown : test_ownership s account = true) :
    (s.delOutcome = .inUse →
      processSnaps account marker (s :: rest) del ret
        = processSnaps account marker rest del (ret ++ [s.id]))
    ∧ (s.delOutcome = .otherErr →
      ∀ ps : List (List Snapshot),
        delete_snapshots account marker [] ((s :: rest) :: ps) = .error s.id) := by
  have hcond : (isTrue (test_protected s marker) || !(test_ownership s account)) = false := by
    rw [hprot, hown]
    rfl
  constructor
  · intro h
    rw [processSnaps, hcond]
    simp only [Bool.false_eq_true, if_false]
    rw [h]
  · intro h ps
    rw [delete_snapshots, sweepLoop, List.nil_append, processSnaps, hcond]
    simp only [Bool.false_eq_true, if_false]
    rw [h]

/-- Witness for C8 at concrete snapshots: an in-use delete failure retains and
continues; any other delete failure aborts the sweep. -/
theorem c8_witness :
    processSnaps "1" "M" [⟨"snap-9", "1", [], .inUse⟩] [] []
      = processSnaps "1" "M" [] [] ["snap-9"]
    ∧ delete_snapshots "1" "M" [] [[⟨"snap-8", "1", [], .otherErr⟩]] = .error "snap-8" :=
  ⟨(c8_delete_failure_policy "1" "M" ⟨"snap-9", "1", [], .inUse⟩ [] [] []
      (by decide) (by decide)).1 rfl,
   (c8_delete_failure_policy "1" "M" ⟨"snap-8", "1", [], .otherErr⟩ [] [] []
      (by decide) (by decide)).2 rfl []⟩

/-- Claim C10 (confirmed). A snapshot with a non-empty tag list containing no
`Name` tag makes `test_protected` fall off its loop and return Python's
`None`, a falsy value; the sweep's `== True` comparison then classifies the
snapshot as unprotected, so when it is owned and its delete succeeds it is
deleted. -/
theorem c10_no_name_tag_unprotected (s : Snapshot) (marker account : String)
    (rest : List Snapshot) (del ret : List String)
    (h1 : s.tags ≠ []) (h2 : ∀ t ∈ s.tags, t.key ≠ "Name") :
    test_protected s marker = none
    ∧ (test_ownership s account = true → s.delOutcome = .ok →
        processSnaps account marker (s :: rest) del ret
          = processSnaps account marker rest (del ++ [s.id]) ret) := by
  have hf : s.tags.find? (fun t => t.key == "Name") = none := by
    rw [List.find?_eq_none]
    intro t ht
    simpa using h2 t ht
  have hnone : test_protected s marker = none := by
    obtain ⟨sid, sown, stags, sout⟩ := s
    cases stags with
    | nil => exact absurd rfl h1
    | cons a ts =>
      simp only [test_protected]
      rw [hf]
  refine ⟨hnone, ?_⟩
  intro hown hok
  have hcond : (isTrue (test_protected s marker) || !(test_ownership s account)) = false := by
    rw [hnone, hown]
    rfl
  rw [processSnaps, hcond]
  simp only [Bool.false_eq_true, if_false]
  rw [hok]

/-- Witness for C10 at a concrete snapshot tagged only `Role=db`. -/
theorem c10_witness :
    test_protected ⟨"snap-7", "1", [⟨"Role", "db"⟩], .ok⟩ "_BACKUP" = none
    ∧ processSnaps "1" "_BACKUP" [⟨"snap-7", "1", [⟨"Role", "db"⟩], .ok⟩] [] []
        = processSnaps "1" "_BACKUP" [] ["snap-7"] [] :=
  ⟨(c10_no_name_tag_unprotected ⟨"snap-7", "1", [⟨"Role", "db"⟩], .ok⟩ "_BACKUP" "1" [] [] []
      (by decide) (by decide)).1,
   (c10_no_name_tag_unprotected ⟨"snap-7", "1", [⟨"Role", "db"⟩], .ok⟩ "_BACKUP" "1" [] [] []
      (by decide) (by decide)).2 (by decide) rfl⟩

/-- Claim C5 (confirmed). `wait_deregister` on the response sequence
`[found, found, not-found]` returns success after exactly 2 sleeps (the
timeout bound must exceed the 2 sleeps, as with the defaults); on an all-found
stream it raises the distinct `MyTimeoutError` outcome after `⌈T / i⌉` sleeps
(written `(T + i - 1) / i`). -/
theorem c5_wait_deregister (resp : Nat → Bool) (i T : Nat) (hi : 0 < i) :
    (resp 0 = true → resp 1 = true → resp 2 = false → 2 * i < T →
      wait_deregister resp i T = some (.success 2))
    ∧ ((∀ n, resp n = true) → 0 < T →
      wait_deregister resp i T = some (.timeout ((T + i - 1) / i))) := by
  constructor
  · intro h0 h1 h2 hT
    obtain ⟨m, hm⟩ : ∃ m, T + 1 = m + 3 := ⟨T - 2, by omega⟩
    rw [wait_deregister, hm]
    rw [wdLoop, if_pos h0, if_neg (by omega : ¬ T ≤ 0 + i)]
    rw [wdLoop, if_pos h1, if_neg (by omega : ¬ T ≤ 0 + i + i)]
    rw [wdLoop, h2]
    simp
  · intro hall hT
    rw [wait_deregister]
    have h0 : (0 : Nat) * i = 0 := by ring
    have hmul : (0 + (T + 1)) * i = (T + 1) * i := by ring
    have hle : T + 1 ≤ (T + 1) * i := Nat.le_mul_of_pos_right (T + 1) hi
    have := wdLoop_all_found resp i T hi hall (T + 1) 0 (by omega) (by omega)
    rwa [h0] at this

/-- Witness for C5: with interval 1 and timeout 5, the stream found twice then
absent succeeds after 2 sleeps, and the all-found stream times out after
5 sleeps. -/
theorem c5_witness :
    wait_deregister (fun n => decide (n < 2)) 1 5 = some (.success 2)
    ∧ wait_deregister (fun _ => true) 1 5 = some (.timeout 5) :=
  ⟨(c5_wait_deregister (fun n => decide (n < 2)) 1 5 (by decide)).1
      (by decide) (by decide) (by decide) (by decide),
   (c5_wait_deregister (fun _ => true) 1 5 (by decide)).2 (fun n => rfl) (by decide)⟩

/-- Claim C6 (confirmed). `wait_copy` on the response sequence
`[not-found, not-found, available]` returns success after exactly 2 sleeps of
length `i` (the timeout bound must exceed the 2 sleeps, as with the
defaults); on an all-not-found stream it aborts with the timeout outcome
after `⌈T / i⌉` sleeps (written `(T + i - 1) / i`). -/
theorem c6_wait_copy (resp : Nat → ImagesResp) (i T : Nat) (hi : 0 < i) :
    (resp 0 = .zero → resp 1 = .zero → resp 2 = .one true → 2 * i < T →
      wait_copy resp i T = some (.success 2))
    ∧ ((∀ n, resp n = .zero) → 0 < T →
      wait_copy resp i T = some (.timeout ((T + i - 1) / i))) := by
  constructor
  · intro h0 h1 h2 hT
    obtain ⟨m, hm⟩ : ∃ m, T + 1 = m + 3 := ⟨T - 2, by omega⟩
    rw [wait_copy, hm]
    rw [wcLoop, h0]
    simp only
    rw [if_neg (by omega : ¬ T ≤ 0 + i)]
    rw [wcLoop, h1]
    simp only
    rw [if_neg (by omega : ¬ T ≤ 0 + i + i)]
    rw [wcLoop, h2]
    simp
  · intro hall hT
    rw [wait_copy]
    have h0 : (0 : Nat) * i = 0 := by ring
    have hmul : (0 + (T + 1)) * i = (T + 1) * i := by ring
    have hle : T + 1 ≤ (T + 1) * i := Nat.le_mul_of_pos_right (T + 1) hi
    have := wcLoop_all_zero resp i T hi hall (T + 1) 0 (by omega) (by omega)
    rwa [h0] at this

/-- Witness for C6: with interval 1 and timeout 5, the stream absent twice
then available succeeds after 2 sleeps, and the all-absent stream times out
after 5 sleeps. -/
theorem c6_witness :
    wait_copy (fun n => if n < 2 then .zero else .one true) 1 5 = some (.success 2)
    ∧ wait_copy (fun _ => .zero) 1 5 = some (.timeout 5) :=
  ⟨(c6_wait_copy (fun n => if n < 2 then .zero else .one true) 1 5 (by decide)).1
      (by decide) (by decide) (by decide) (by decide),
   (c6_wait_copy (fun _ => .zero) 1 5 (by decide)).2 (fun n => rfl) (by decide)⟩

/-- Claim C9 (confirmed). `wait_copy` terminates (success or timeout) on
every response stream in which each response lists at most one matching
image; a response listing two or more images matches neither branch of the
loop body, so the iteration neither returns, nor sleeps, nor advances the
timer, and an all-many stream never exits the loop (it exhausts any amount of
fuel: the `none` result). -/
theorem c9_wait_copy_termination (resp : Nat → ImagesResp) (i T : Nat) :
    ((∀ n, resp n ≠ .many) → 0 < i → 0 < T → ∃ r, wait_copy resp i T = some r)
    ∧ (∀ fuel k sleeps timer, resp k = .many → timer < T →
        wcLoop resp i T (fuel + 1) k sleeps timer
          = wcLoop resp i T fuel (k + 1) sleeps timer)
    ∧ ((∀ n, resp n = .many) → 0 < T → wait_copy resp i T = none) := by
  refine ⟨?_, ?_, ?_⟩
  · intro hmany hi hT
    rw [wait_copy]
    have hmul : 0 + (T + 1) * i = (T + 1) * i := by ring
    have hle : T + 1 ≤ (T + 1) * i := Nat.le_mul_of_pos_right (T + 1) hi
    exact wcLoop_terminates resp i T hmany (T + 1) 0 0 0 hT (by omega)
  · intro fuel k sleeps timer hk htimer
    rw [wcLoop, hk]
    simp only
    rw [if_neg (by omega)]
  · intro hall hT
    rw [wait_copy]
    exact wcLoop_all_many resp i T hall (T + 1) 0 0 0 hT

/-- Witness for C9: an all-absent (hence at-most-one) stream terminates; a
many-image response makes a no-progress step; an all-many stream never
exits. -/
theorem c9_witness :
    (∃ r, wait_copy (fun _ => .zero) 1 1 = some r)
    ∧ wcLoop (fun _ => .many) 1 1 1 0 0 0 = wcLoop (fun _ => .many) 1 1 0 1 0 0
    ∧ wait_copy (fun _ => .many) 1 1 = none :=
  ⟨(c9_wait_copy_termination (fun _ => .zero) 1 1).1 (fun n => by decide)
      (by decide) (by decide),
   (c9_wait_copy_termination (fun _ => .many) 1 1).2.1 0 0 0 0 rfl (by decide),
   (c9_wait_copy_termination (fun _ => .many) 1 1).2.2 (fun n => rfl) (by decide)⟩

/-- Claim C4 (confirmed). For a build cookie whose continuity file does not
already exist (`mkdtemp` plus a per-build cookie guarantee freshness), a
non-empty collection of membership identifiers (non-empty strings free of
whitespace and commas, as load-balancer names and target-group ARNs are)
stored by `store_to_disk` is read back verbatim — same list, hence same set —
by `retrieve_from_disk` for the same cookie and category; and after
`clean_up` no file whose name contains the cookie remains, so in particular a
further retrieve finds nothing. -/
theorem c4_continuity_roundtrip (category cookie tmpdir : String)
    (ids : List String) (fs : List FSFile)
    (h1 : ∀ f ∈ fs, f.fname ≠ cookie ++ "_" ++ category)
    (h2 : ids ≠ [])
    (h3 : ∀ x ∈ ids, isCleanId x = true) :
    retrieve_from_disk category cookie (store_to_disk category ids cookie tmpdir fs)
      = some ids
    ∧ (∀ f ∈ clean_up cookie (store_to_disk category ids cookie tmpdir fs),
        substr cookie f.fname = false)
    ∧ retrieve_from_disk category cookie
        (clean_up cookie (store_to_disk category ids cookie tmpdir fs)) = none := by
  have hclean : ∀ f ∈ clean_up cookie (store_to_disk category ids cookie tmpdir fs),
      substr cookie f.fname = false := by
    intro f hf
    rw [clean_up] at hf
    have := (List.mem_filter.mp hf).2
    simpa using this
  refine ⟨?_, hclean, ?_⟩
  · rw [retrieve_from_disk, find_file, store_to_disk]
    rw [find?_append_of_none _ fs _ (by intro f hf; simpa using h1 f hf)]
    rw [List.find?_cons_of_pos _ (by simp)]
    simp only
    rw [if_neg (by simp [List.isEmpty_eq_false, h2])]
    rw [List.map_map]
    have hmap : ids.map (pyStrip ∘ fun x => rstripTrail x ++ "\n") = ids.map id := by
      apply List.map_congr_left
      intro x hx
      have hr : rstripTrail x = x := rstripTrail_clean x (h3 x hx)
      simp only [Function.comp, hr]
      exact pyStrip_clean x (h3 x hx)
    rw [hmap, List.map_id]
  · have hnone : find_file (cookie ++ "_" ++ category)
        (clean_up cookie (store_to_disk category ids cookie tmpdir fs)) = none := by
      rw [find_file, List.find?_eq_none]
      intro f hf hcon
      have hname : f.fname = cookie ++ "_" ++ category := by simpa using hcon
      have hsub : substr cookie f.fname = true := by
        rw [hname, String.append_assoc]
        exact substr_append cookie ("_" ++ category)
      rw [hclean f hf] at hsub
      cases hsub
    rw [retrieve_from_disk, hnone]

/-- Witness for C4 at a concrete store/retrieve/clean_up run with cookie
`BUILD7` and identifiers `lb-1`, `lb-2` on an empty `/tmp`. -/
theorem c4_witness :
    retrieve_from_disk "Load_Balancer" "BUILD7"
        (store_to_disk "Load_Balancer" ["lb-1", "lb-2"] "BUILD7" "/tmp/x" [])
      = some ["lb-1", "lb-2"]
    ∧ retrieve_from_disk "Load_Balancer" "BUILD7"
        (clean_up "BUILD7"
          (store_to_disk "Load_Balancer" ["lb-1", "lb-2"] "BUILD7" "/tmp/x" []))
      = none :=
  ⟨(c4_continuity_roundtrip "Load_Balancer" "BUILD7" "/tmp/x" ["lb-1", "lb-2"] []
      (by simp) (by decide) (by decide)).1,
   (c4_continuity_roundtrip "Load_Balancer" "BUILD7" "/tmp/x" ["lb-1", "lb-2"] []
      (by simp) (by decide) (by decide)).2.2⟩

/-- Claim C7, amended (corrected). A deregister call is issued for exactly the
owned images whose name contains the marker; an image whose call answers
HTTP 200 lands in the deregistered list; an image whose call answers anything
else lands in neither the deregistered nor the retained list (no retry); the
retained list consists of the owned images whose name lacks the marker. -/
theorem c7_deregister_sweep_amended (account marker : String) (images : List Image)
    (hnd : (images.map (fun im => im.id)).Nodup) :
    (∀ im, im ∈ (splitImages marker (images.filter (fun x => x.ownerId == account))).1
      ↔ im ∈ images ∧ im.ownerId = account ∧ substr marker im.name = true)
    ∧ (∀ im, im ∈ images → im.ownerId = account → substr marker im.name = true →
        im.deregStatus = 200 → im.id ∈ (deregister_images account marker images).1)
    ∧ (∀ im, im ∈ images → im.ownerId = account → substr marker im.name = true →
        im.deregStatus ≠ 200 →
        im.id ∉ (deregister_images account marker images).1
        ∧ im.id ∉ (deregister_images account marker images).2)
    ∧ (∀ im, im ∈ images → im.ownerId = account → substr marker im.name = false →
        im.id ∈ (deregister_images account marker images).2) := by
  have hinj := List.inj_on_of_nodup_map hnd
  have hfst : (deregister_images account marker images).1
      = deregLoop (splitImages marker (images.filter (fun x => x.ownerId == account))).1 :=
    rfl
  have hsnd : (deregister_images account marker images).2
      = (splitImages marker (images.filter (fun x => x.ownerId == account))).2 :=
    rfl
  have hchar : ∀ im,
      im ∈ (splitImages marker (images.filter (fun x => x.ownerId == account))).1
        ↔ im ∈ images ∧ im.ownerId = account ∧ substr marker im.name = true := by
    intro im
    rw [mem_splitImages_fst, List.mem_filter]
    constructor
    · rintro ⟨⟨h1, h2⟩, h3⟩
      exact ⟨h1, by simpa using h2, h3⟩
    · rintro ⟨h1, h2, h3⟩
      exact ⟨⟨h1, by simp [h2]⟩, h3⟩
  refine ⟨hchar, ?_, ?_, ?_⟩
  · intro im hmem howner hmark hstatus
    rw [hfst, mem_deregLoop]
    exact ⟨im, (hchar im).mpr ⟨hmem, howner, hmark⟩, hstatus, rfl⟩
  · intro im hmem howner hmark hstatus
    constructor
    · intro hcon
      rw [hfst, mem_deregLoop] at hcon
      obtain ⟨im2, h2mem, h2status, h2id⟩ := hcon
      obtain ⟨h2img, -, -⟩ := (hchar im2).mp h2mem
      obtain rfl := hinj hmem h2img h2id
      exact hstatus h2status
    · intro hcon
      rw [hsnd, mem_splitImages_snd] at hcon
      obtain ⟨im3, h3mem, h3mark, h3id⟩ := hcon
      have h3img : im3 ∈ images := (List.mem_filter.mp h3mem).1
      obtain rfl := hinj hmem h3img h3id
      rw [hmark] at h3mark
      cases h3mark
  · intro im hmem howner hmark
    rw [hsnd, mem_splitImages_snd]
    exact ⟨im, List.mem_filter.mpr ⟨hmem, by simp [howner]⟩, hmark, rfl⟩

/-- Witness for C7's amended statement: a successfully deregistered marked
image is listed, and an unmarked owned image is retained. -/
theorem c7_witness :
    "ami-1" ∈ (deregister_images "1" "_TMP"
        [⟨"ami-1", "web_TMP", "1", 200⟩, ⟨"ami-2", "web_CURRENT", "1", 200⟩]).1
    ∧ "ami-2" ∈ (deregister_images "1" "_TMP"
        [⟨"ami-1", "web_TMP", "1", 200⟩, ⟨"ami-2", "web_CURRENT", "1", 200⟩]).2 :=
  ⟨(c7_deregister_sweep_amended "1" "_TMP"
      [⟨"ami-1", "web_TMP", "1", 200⟩, ⟨"ami-2", "web_CURRENT", "1", 200⟩]
      (by decide)).2.1 ⟨"ami-1", "web_TMP", "1", 200⟩
      (by decide) rfl (by decide) rfl,
   (c7_deregister_sweep_amended "1" "_TMP"
      [⟨"ami-1", "web_TMP", "1", 200⟩, ⟨"ami-2", "web_CURRENT", "1", 200⟩]
      (by decide)).2.2.2 ⟨"ami-2", "web_CURRENT", "1", 200⟩
      (by decide) rfl (by decide)⟩

/-- Claim C3, amended (corrected). Each locator returns the id of the first
enumerated owned resource matching the query and aborts with not-found when
none matches, never yielding a partial handle — but the run-state requirement
holds only for `fabfile.find_instance_id`; `update_ami.find_instance_id`
selects the first owned instance whose `Name` tag equals the query regardless
of run state. Concretely: `find_ami_id` fails iff no owned image has the
exact name, and a returned id belongs to the first owned image with that
name; `update_ami`'s locator fails iff no owned instance carries a matching
`Name` tag, and a returned id belongs to the first such instance;
`fabfile`'s locator fails iff no owned matching instance is in state
`running`, and a returned id belongs to an owned, matching, running instance,
namely the first running one in candidate order. -/
theorem c3_locators_amended (account search : String) (instances : List Inst)
    (images : List Image) :
    (find_ami_id account search images = none ↔
      ∀ im ∈ images, im.ownerId = account → im.name ≠ search)
    ∧ (∀ resId, find_ami_id account search images = some resId →
        ∃ l1 im l2, images.filter (fun x => x.ownerId == account) = l1 ++ im :: l2
          ∧ im.name = search ∧ resId = im.id ∧ ∀ x ∈ l1, x.name ≠ search)
    ∧ (find_instance_id_upd account search instances = none ↔
        ∀ inst ∈ instances, inst.ownerId = account → instMatches search inst = false)
    ∧ (∀ resId, find_instance_id_upd account search instances = some resId →
        ∃ l1 inst l2,
          instances.filter (fun x => x.ownerId == account) = l1 ++ inst :: l2
          ∧ instMatches search inst = true ∧ resId = inst.id
          ∧ ∀ x ∈ l1, instMatches search x = false)
    ∧ (find_instance_id_fab account search instances = none ↔
        ∀ inst ∈ instances, inst.ownerId = account → instMatches search inst = true →
          inst.stateName ≠ "running")
    ∧ (∀ resId, find_instance_id_fab account search instances = some resId →
        ∃ inst, inst ∈ instances ∧ inst.ownerId = account
          ∧ instMatches search inst = true ∧ inst.stateName = "running"
          ∧ resId = inst.id
          ∧ ∃ l1 l2,
              fabCandidates search (instances.filter (fun x => x.ownerId == account))
                = l1 ++ inst :: l2
              ∧ ∀ x ∈ l1, x.stateName ≠ "running") := by
  have hfab : find_instance_id_fab account search instances
      = ((fabCandidates search (instances.filter (fun x => x.ownerId == account))).find?
          (fun inst => inst.stateName == "running")).map (fun inst => inst.id) := by
    rw [find_instance_id_fab]
    cases (fabCandidates search (instances.filter (fun x => x.ownerId == account))).find?
        (fun inst => inst.stateName == "running") <;> rfl
  refine ⟨?_, ?_, ?_, ?_, ?_, ?_⟩
  · rw [find_ami_id, Option.map_eq_none', List.find?_eq_none]
    constructor
    · intro h im hmem howner hcon
      exact h im (List.mem_filter.mpr ⟨hmem, by simp [howner]⟩) (by simp [hcon])
    · intro h x hx hcon
      obtain ⟨h1, h2⟩ := List.mem_filter.mp hx
      exact h x h1 (by simpa using h2) (by simpa using hcon)
  · intro resId h
    rw [find_ami_id, Option.map_eq_some'] at h
    obtain ⟨im, hfind, hid⟩ := h
    obtain ⟨l1, l2, heq, hp, hall⟩ := find?_some_split _ _ _ hfind
    exact ⟨l1, im, l2, heq, by simpa using hp, hid.symm,
      fun x hx => by simpa using hall x hx⟩
  · rw [find_instance_id_upd, List.findSome?_eq_none_iff]
    constructor
    · intro h inst hmem howner
      have := h inst (List.mem_filter.mpr ⟨hmem, by simp [howner]⟩)
      exact (updScanTags_eq_none inst.id search inst.tags).mp this
    · intro h x hx
      obtain ⟨h1, h2⟩ := List.mem_filter.mp hx
      rw [updScanTags_eq_none]
      exact h x h1 (by simpa using h2)
  · intro resId h
    rw [find_instance_id_upd] at h
    obtain ⟨l1, a, l2, heq, hfa, hnone⟩ := findSome?_some_split _ _ _ h
    obtain ⟨hres, hmatch⟩ := updScanTags_eq_some a.id search resId a.tags hfa
    exact ⟨l1, a, l2, heq, hmatch, hres, fun x hx =>
      (updScanTags_eq_none x.id search x.tags).mp (hnone x hx)⟩
  · rw [hfab, Option.map_eq_none', List.find?_eq_none]
    constructor
    · intro h inst hmem howner hmatch hcon
      have hc : inst ∈ fabCandidates search
          (instances.filter (fun x => x.ownerId == account)) :=
        (mem_fabCandidates search _ inst).mpr
          ⟨List.mem_filter.mpr ⟨hmem, by simp [howner]⟩, hmatch⟩
      exact h inst hc (by simp [hcon])
    · intro h x hx hcon
      obtain ⟨hxin, hxmatch⟩ := (mem_fabCandidates search _ x).mp hx
      obtain ⟨h1, h2⟩ := List.mem_filter.mp hxin
      exact h x h1 (by simpa using h2) hxmatch (by simpa using hcon)
  · intro resId h
    rw [hfab, Option.map_eq_some'] at h
    obtain ⟨inst, hfind, hid⟩ := h
    obtain ⟨l1, l2, heq, hp, hall⟩ := find?_some_split _ _ _ hfind
    have hcand : inst ∈ fabCandidates search
        (instances.filter (fun x => x.ownerId == account)) := by
      rw [heq]
      exact List.mem_append_right _ (List.mem_cons_self _ _)
    obtain ⟨hin, hmatch⟩ := (mem_fabCandidates search _ inst).mp hcand
    obtain ⟨h1, h2⟩ := List.mem_filter.mp hin
    exact ⟨inst, h1, by simpa using h2, hmatch, by simpa using hp, hid.symm,
      l1, l2, heq, fun x hx hcon => by
        have hxf := hall x hx
        rw [hcon] at hxf
        simp at hxf⟩

/-- Witness for C3's amended statement: an empty image set makes the AMI
locator abort, and a sole stopped candidate makes `fabfile`'s instance
locator abort while `update_ami`'s selects it. -/
theorem c3_witness :
    find_ami_id "1" "web_CURRENT" ([] : List Image) = none
    ∧ find_instance_id_fab "1" "web" [⟨"i-1", "1", [⟨"Name", "web"⟩], "stopped"⟩] = none :=
  ⟨(c3_locators_amended "1" "web_CURRENT" [] []).1.mpr (by simp),
   (c3_locators_amended "1" "web" [⟨"i-1", "1", [⟨"Name", "web"⟩], "stopped"⟩] []).2.2.2.2.1.mpr
      (by decide)⟩
